import Mathlib

/-
Verification of the servo parser orchestration module
(components/script/dom/servoparser/mod.rs).

The development shallowly embeds the data model and operations of the
module: `BufferQueue` becomes `List String`, the parser and document
fields touched by the module become a record `ParserModelState`, and
external collaborators (the html5ever tokenizer engines, script
`prepare`/`execute`, the network decoder internals, the prefetch
tokenizer, `ScriptThread::page_headers_available`) are threaded as
explicit function parameters, since they live outside this module.
Fatal assertions (`assert!`) are modelled by returning `Option` with
`none` standing for the assertion failure.
-/

namespace ServoModel

/-! ## Buffer queues

A `BufferQueue` is an ordered sequence of text chunks; the module only
uses `push_back`, `pop_front` and `is_empty`.  The pop-all/push-back
loops of the source (`while let Some(chunk) = q.pop_front() { target.push_back(chunk) }`
and the `for chunk in text { q.push_back(chunk) }` loops) are embedded
as `drainInto`. -/

/-- The source's drain loop: pop chunks off `source` front-to-back and
push each onto the back of `target`. -/
def drainInto : List String → List String → List String
  | target, [] => target
  | target, c :: rest => drainInto (target ++ [c]) rest

/-! ## Content-security-policy resolution (ParserContext::process_response)

CSP parsing itself is an external collaborator
(`content_security_policy::CspList`), so the combination logic is
parameterised over the policy-list type `γ`, a `parse` function
(`CspList::parse` at header source / enforce disposition) and an
`append` function (`CspList::append`).  A response header value is
`Option String`: `some` is a value whose `to_str()` succeeds, `none`
one containing invalid text. -/

/-- The `for c in csp { let c = c.to_str().ok()?; csp_list.append(...) }`
loop over the remaining header instances, starting from the policies of
the first instance. -/
def appendRemainingCsp (parse : String → γ) (app : γ → γ → γ) :
    γ → List (Option String) → Option γ
  | acc, [] => some acc
  | _, none :: _ => none
  | acc, some c :: rest => appendRemainingCsp parse app (app acc (parse c)) rest

/-- The header-combining closure of `ParserContext::process_response`
(lines 814-834): take the first `content-security-policy` header
instance (absent or invalid text gives `none` for the whole list via
`?`), parse it, then fold the remaining instances with `append`, again
aborting the whole computation on any invalid value. -/
def resolveCspList (parse : String → γ) (app : γ → γ → γ) :
    List (Option String) → Option γ
  | [] => none
  | none :: _ => none
  | some c :: rest => appendRemainingCsp parse app (parse c) rest

/-- Combination of a list of valid header values: parse the first,
append the parses of the rest in order. -/
def combinePolicies (parse : String → γ) (app : γ → γ → γ) :
    List String → Option γ
  | [] => none
  | c :: rest => some (rest.foldl (fun acc s => app acc (parse s)) (parse c))

/-- Modelled from the spec: "multiple header instances are combined; a
header value containing invalid text is silently skipped".  Under this
reading the invalid instances are dropped and the valid ones are still
combined. -/
def resolveCspListSkipInvalid (parse : String → γ) (app : γ → γ → γ)
    (headers : List (Option String)) : Option γ :=
  combinePolicies parse app (headers.filterMap id)

/-! ## Encodings and BOM sniffing -/

/-- The encodings reachable through BOM detection, plus a catch-all for
every other encoding a document may start with. -/
inductive Enc
  | utf8
  | utf16le
  | utf16be
  | other (name : String)
deriving Repr, DecidableEq

/-- `encoding_rs::Encoding::for_bom` (external encoding-table lookup,
assumed provided): recognise the UTF-8 BOM `EF BB BF` and the UTF-16
BOMs `FF FE` / `FE FF` as prefixes of the byte string. -/
def for_bom (bytes : List Nat) : Option (Enc × Nat) :=
  if bytes.take 3 = [0xEF, 0xBB, 0xBF] then some (Enc.utf8, 3)
  else if bytes.take 2 = [0xFF, 0xFE] then some (Enc.utf16le, 2)
  else if bytes.take 2 = [0xFE, 0xFF] then some (Enc.utf16be, 2)
  else none

/-! ## Parser model state

One record holds the `ServoParser` fields of the source together with
the document fields the module reads and writes (ready state, quirks
context, pending parsing-blocking script, CSP list, current parser).
The internal state of the network decoder and of the tokenizer are
opaque to this module and are represented by `Nat` stamps that only the
external oracles ever interpret. -/

inductive ReadyState
  | loading
  | interactive
  | complete
deriving Repr, DecidableEq

structure ParserModelState where
  /-- Input received from network (`network_input`). -/
  networkInput : List String
  /-- Input received from script, for `document.write` (`script_input`). -/
  scriptInput : List String
  /-- The prefetch input queue (`prefetch_input`). -/
  prefetchInput : List String
  /-- The BOM sniffing state (`bom_sniff`): `some` holds the bytes found so far. -/
  bomSniff : Option (List Nat)
  /-- The network decoder (`network_decoder`): `some` holds its opaque internal state. -/
  networkDecoder : Option Nat
  /-- `last_chunk_received`. -/
  lastChunkReceived : Bool
  /-- `suspended`. -/
  suspended : Bool
  /-- `script_nesting_level`. -/
  scriptNestingLevel : Nat
  /-- `aborted`. -/
  aborted : Bool
  /-- `script_created_parser`. -/
  scriptCreatedParser : Bool
  /-- Opaque internal state of the authoritative tokenizer. -/
  tokenizerState : Nat
  /-- Whether `Tokenizer::end` has been called. -/
  tokenizerEnded : Bool
  /-- The document's encoding (`document.encoding`). -/
  encoding : Enc
  /-- The document's ready state. -/
  readyState : ReadyState
  /-- Every `set_ready_state` call made so far, in order. -/
  readyStateLog : List ReadyState
  /-- Whether the document's current parser is this parser. -/
  currentParser : Bool
  /-- `document.has_pending_parsing_blocking_script()`. -/
  hasPendingParsingBlockingScript : Bool
  /-- Whether `document.browsing_context()` is `some`. -/
  hasBrowsingContext : Bool
  /-- The document's CSP list, as set by `set_csp_list`. -/
  cspList : Option (List String)
  /-- Whether `document.finish_load` has been notified. -/
  finishedLoad : Bool
deriving Repr, DecidableEq

/-- `document.set_ready_state`, additionally recording the transition. -/
def setReadyState (st : ParserModelState) (rs : ReadyState) : ParserModelState :=
  { st with readyState := rs, readyStateLog := st.readyStateLog ++ [rs] }

/-- `ServoParser::can_write` (line 338):
`script_created_parser || script_nesting_level > 0`. -/
def can_write (st : ParserModelState) : Bool :=
  st.scriptCreatedParser || decide (0 < st.scriptNestingLevel)

/-- `ServoParser::is_active` (lines 421-423):
`script_nesting_level() > 0 && !aborted.get()`. -/
def is_active (st : ParserModelState) : Bool :=
  decide (0 < st.scriptNestingLevel) && !st.aborted

/-- The queue merge of `resume_with_pending_parsing_blocking_script`
(lines 318-324): `mem::swap` the two queues, then drain the (swapped)
script input onto the back of the (swapped) network input. -/
def mergeInputQueues (st : ParserModelState) : ParserModelState :=
  let scriptInputSwapped := st.networkInput
  let networkInputSwapped := st.scriptInput
  { st with
      scriptInput := [],
      networkInput := drainInto networkInputSwapped scriptInputSwapped }

/-- The BOM sniffing block of `push_bytes_input_chunk` (lines 500-514):
while sniffing, accumulate bytes until at least 3 are available, then
take a verdict with `for_bom` (setting the document encoding on
success) and leave the sniffing state. -/
def bomSniffStep (st : ParserModelState) (chunk : List Nat) : ParserModelState :=
  match st.bomSniff with
  | none => st
  | some pendingBom =>
    if 3 ≤ pendingBom.length + chunk.length then
      let pb := pendingBom ++ chunk.take (3 - pendingBom.length)
      match for_bom pb with
      | some (enc, _) => { st with bomSniff := none, encoding := enc }
      | none => { st with bomSniff := none }
    else
      { st with bomSniff := some (pendingBom ++ chunk) }

/-- `ServoParser::push_tendril_input_chunk` (lines 468-494).  The
prefetch tokenizer is an external collaborator; its consumption of the
prefetch queue is the oracle `prefetchFeed`. -/
def push_tendril_input_chunk (prefetchFeed : List String → List String)
    (st : ParserModelState) (chunk : String) : ParserModelState :=
  if chunk.isEmpty then st
  else
    let st :=
      if st.hasBrowsingContext then
        { st with prefetchInput := prefetchFeed (st.prefetchInput ++ [chunk]) }
      else st
    { st with networkInput := st.networkInput ++ [chunk] }

/-- `ServoParser::push_bytes_input_chunk` (lines 496-524): BOM sniff,
then decode through the (stateful, external) network decoder, then push
the decoded text.  `none` models the `unwrap` panic on an absent
decoder. -/
def push_bytes_input_chunk (decode : Nat → List Nat → Nat × String)
    (prefetchFeed : List String → List String)
    (st : ParserModelState) (chunk : List Nat) : Option ParserModelState :=
  let st1 := bomSniffStep st chunk
  match st1.networkDecoder with
  | none => none
  | some d =>
    let dres := decode d chunk
    some (push_tendril_input_chunk prefetchFeed
      { st1 with networkDecoder := some dres.1 } dres.2)

/-- Iterated `push_bytes_input_chunk` over a sequence of byte chunks. -/
def feedBytesChunks (decode : Nat → List Nat → Nat × String)
    (prefetchFeed : List String → List String) :
    ParserModelState → List (List Nat) → Option ParserModelState
  | st, [] => some st
  | st, c :: cs =>
    match push_bytes_input_chunk decode prefetchFeed st c with
    | none => none
    | some st1 => feedBytesChunks decode prefetchFeed st1 cs

/-- The BOM sniffing automaton of `push_bytes_input_chunk` on its own
state: the pair of the sniffing buffer and the document encoding. -/
def sniffStep (st : Option (List Nat) × Enc) (c : List Nat) :
    Option (List Nat) × Enc :=
  match st with
  | (none, e) => (none, e)
  | (some p, e) =>
    if 3 ≤ p.length + c.length then
      match for_bom (p ++ c.take (3 - p.length)) with
      | some (enc, _) => (none, enc)
      | none => (none, e)
    else (some (p ++ c), e)

/-- `ServoParser::push_string_input_chunk` (lines 526-536): string input
carries no BOM, so drop the sniffing state and push directly. -/
def push_string_input_chunk (prefetchFeed : List String → List String)
    (st : ParserModelState) (chunk : String) : ParserModelState :=
  let st := if st.bomSniff.isSome then { st with bomSniff := none } else st
  push_tendril_input_chunk prefetchFeed st chunk

/-- `ServoParser::finish` (lines 644-662).  The leading `assert!`s are
modelled as `none` results. -/
def finish (st : ParserModelState) : Option ParserModelState :=
  if st.suspended then none
  else if st.lastChunkReceived = false then none
  else if st.scriptInput.isEmpty = false then none
  else if st.networkInput.isEmpty = false then none
  else if st.networkDecoder.isSome then none
  else
    let st := setReadyState st ReadyState.interactive
    let st := { st with tokenizerEnded := true, currentParser := false }
    some { st with finishedLoad := true }

/-- `ServoParser::do_parse_sync` (lines 557-582): assert the script
input is empty; if the last chunk was received, finalise the decoder
(the external `decoderFinish` flushes trailing bytes) and append any
flushed text to the network input; run the tokenize loop (the oracle
`tok` drives the external tokenizer and script `prepare`, consuming
`network_input` and possibly suspending); then assert the network input
drained and finish on end-of-stream. -/
def do_parse_sync (decoderFinish : Nat → String)
    (tok : ParserModelState → ParserModelState)
    (st : ParserModelState) : Option ParserModelState :=
  if st.scriptInput.isEmpty = false then none
  else
    let st1 :=
      if st.lastChunkReceived then
        match st.networkDecoder with
        | some d =>
          let chunk := decoderFinish d
          let st' := { st with networkDecoder := none }
          if chunk.isEmpty then st'
          else { st' with networkInput := st'.networkInput ++ [chunk] }
        | none => st
      else st
    let st2 := tok st1
    if st2.suspended then some st2
    else if st2.networkInput.isEmpty = false then none
    else if st2.lastChunkReceived then finish st2
    else some st2

/-- `ServoParser::parse_sync` (lines 538-555) only wraps
`do_parse_sync` in profiling, which is external bookkeeping. -/
def parse_sync (decoderFinish : Nat → String)
    (tok : ParserModelState → ParserModelState)
    (st : ParserModelState) : Option ParserModelState :=
  do_parse_sync decoderFinish tok st

/-- `ServoParser::resume_with_pending_parsing_blocking_script`
(lines 310-336): assert suspended, clear the flag, merge the input
queues, assert zero nesting, execute the script (external oracle) at
nesting depth 1, restore the depth, and resume synchronous parsing if
no new suspension occurred. -/
def resume_with_pending_parsing_blocking_script
    (execute : ParserModelState → ParserModelState)
    (decoderFinish : Nat → String)
    (tok : ParserModelState → ParserModelState)
    (st : ParserModelState) : Option ParserModelState :=
  if st.suspended = false then none
  else
    let st1 := mergeInputQueues { st with suspended := false }
    if st1.scriptNestingLevel ≠ 0 then none
    else
      let st2 := execute { st1 with scriptNestingLevel := st1.scriptNestingLevel + 1 }
      let st3 := { st2 with scriptNestingLevel := st1.scriptNestingLevel }
      if st3.suspended then some st3
      else parse_sync decoderFinish tok st3

/-- `ServoParser::write` (lines 343-381).  The oracle `tokW` is the
`self.tokenize(|t| t.feed(&mut input))` call: it drives the external
tokenizer and any scripts it prepares (which may reenter `write`),
returning the new parser state and the unconsumed remainder of the
temporary input queue. -/
def write (tokW : ParserModelState → List String → ParserModelState × List String)
    (st : ParserModelState) (text : List String) : Option ParserModelState :=
  if can_write st = false then none
  else if st.hasPendingParsingBlockingScript then
    some { st with scriptInput := drainInto st.scriptInput text }
  else if st.scriptInput.isEmpty = false then none
  else
    let input := drainInto [] text
    let fed := tokW st input
    if fed.1.suspended then
      some { fed.1 with scriptInput := drainInto fed.1.scriptInput fed.2 }
    else if fed.2.isEmpty then some fed.1
    else none

/-- `ServoParser::close` (lines 384-397). -/
def close (decoderFinish : Nat → String)
    (tok : ParserModelState → ParserModelState)
    (st : ParserModelState) : Option ParserModelState :=
  if st.scriptCreatedParser = false then none
  else
    let st := { st with lastChunkReceived := true }
    if st.suspended then some st
    else parse_sync decoderFinish tok st

/-- `ServoParser::abort` (lines 400-418): assert not yet aborted, set
the flag, clear both input queues, move the document through the
interactive ready state, end the tokenizer, detach from the document,
and leave the document complete. -/
def abort (st : ParserModelState) : Option ParserModelState :=
  if st.aborted then none
  else
    let st := { st with aborted := true }
    let st := { st with scriptInput := [], networkInput := [] }
    let st := setReadyState st ReadyState.interactive
    let st := { st with tokenizerEnded := true }
    let st := { st with currentParser := false }
    some (setReadyState st ReadyState.complete)

/-! ## Fetch response bridge (ParserContext) -/

/-- The MIME content type of a response: top-level type, subtype,
optional suffix, all kept as strings (`mime::Mime`). -/
structure MimeM where
  ty : String
  sub : String
  suffixPart : Option String
deriving Repr, DecidableEq

/-- The network errors distinguished by `process_response`. -/
inductive NetworkErrorM
  | sslValidation (reason : String) (bytes : List Nat)
  | internal (reason : String)
  | crash (details : String)
  | otherError (msg : String)
deriving Repr, DecidableEq

/-- The slice of `net_traits::Metadata` the bridge reads: the
content-type header and the `content-security-policy` header instances
(`none` for an instance whose value fails `to_str`); `headersPresent`
models the `m.headers.as_ref()?` option. -/
structure MetadataM where
  contentType : Option MimeM
  cspHeaders : Option (List (Option String))
deriving Repr, DecidableEq

/-- `ParserContext`: the parser reference is absent until response
metadata arrives; `is_synthesized_document` marks a synthesised body;
`pushed_entry_index` is the queued navigation-timing placeholder. -/
structure ParserContextM where
  parser : Option ParserModelState
  isSynthesizedDocument : Bool
  pushedEntryIndex : Option Nat
deriving Repr, DecidableEq

/-- The `(metadata, error)` split at the top of `process_response`
(lines 782-805): SSL-validation/internal/crash errors synthesise a
`text/html` metadata; other errors carry none. -/
def metadataAndError (metaResult : Except NetworkErrorM MetadataM) :
    Option MetadataM × Option NetworkErrorM :=
  match metaResult with
  | Except.ok m => (some m, none)
  | Except.error e =>
    match e with
    | NetworkErrorM.sslValidation _ _ =>
      (some { contentType := some { ty := "text", sub := "html", suffixPart := none },
              cspHeaders := none }, some e)
    | NetworkErrorM.internal _ =>
      (some { contentType := some { ty := "text", sub := "html", suffixPart := none },
              cspHeaders := none }, some e)
    | NetworkErrorM.crash _ =>
      (some { contentType := some { ty := "text", sub := "html", suffixPart := none },
              cspHeaders := none }, some e)
    | _ => (none, some e)

/-- `ParserContext::process_response` (lines 781-930).  External
pieces are oracles: `pha` is `ScriptThread::page_headers_available`,
`timing` the `submit_resource_timing` entry index, and `dispatch` the
whole MIME-dispatch `match` (lines 859-929), which synthesises pages
from external resources and feeds them to the parser.  The crucial
ordering of the source is kept: the parser reference is stored (and the
CSP list set) *before* the content-type check, and a missing
content-type returns right there without dispatching. -/
def process_response
    (pha : Option MetadataM → Option ParserModelState)
    (timing : Option Nat)
    (dispatch : ParserContextM → ParserModelState → Option NetworkErrorM → MimeM →
      ParserContextM)
    (ctx : ParserContextM) (metaResult : Except NetworkErrorM MetadataM) :
    ParserContextM :=
  let me := metadataAndError metaResult
  let metadata := me.1
  let error := me.2
  let contentType := metadata.bind (fun m => m.contentType)
  let cspList := metadata.bind (fun m =>
    m.cspHeaders.bind (fun hs =>
      resolveCspList (fun s => [s]) (fun a b => a ++ b) hs))
  match pha metadata with
  | none => ctx
  | some parser =>
    if parser.aborted then ctx
    else
      let parser := { parser with cspList := cspList }
      let ctx := { ctx with parser := some parser, pushedEntryIndex := timing }
      match contentType with
      | none => ctx
      | some mt => dispatch ctx parser error mt

/-- `ServoParser::parse_bytes_chunk` (lines 592-598): become the
document's current parser, push the byte chunk, and parse synchronously
unless suspended. -/
def parse_bytes_chunk (decode : Nat → List Nat → Nat × String)
    (prefetchFeed : List String → List String)
    (decoderFinish : Nat → String)
    (tok : ParserModelState → ParserModelState)
    (st : ParserModelState) (payload : List Nat) : Option ParserModelState :=
  let st := { st with currentParser := true }
  match push_bytes_input_chunk decode prefetchFeed st payload with
  | none => none
  | some st1 =>
    if st1.suspended then some st1
    else parse_sync decoderFinish tok st1

/-- `ParserContext::process_response_chunk` (lines 932-945): drop the
payload only for a synthesised document, an absent parser reference, or
an aborted parser; otherwise decode/push/parse it. -/
def process_response_chunk (decode : Nat → List Nat → Nat × String)
    (prefetchFeed : List String → List String)
    (decoderFinish : Nat → String)
    (tok : ParserModelState → ParserModelState)
    (ctx : ParserContextM) (payload : List Nat) : Option ParserContextM :=
  if ctx.isSynthesizedDocument then some ctx
  else
    match ctx.parser with
    | none => some ctx
    | some parser =>
      if parser.aborted then some ctx
      else
        match parse_bytes_chunk decode prefetchFeed decoderFinish tok parser payload with
        | none => none
        | some parser1 => some { ctx with parser := some parser1 }

/-! ## Element creation (create_element_for_token)

The algorithm is embedded as the trace of the externally visible
operations it performs, in order; element construction itself
(`Element::create`), custom-element lookup and attribute setting are
external collaborators. -/

inductive ParsingAlgorithm
  | Normal
  | Fragment
deriving Repr, DecidableEq

/-- One externally visible step of `create_element_for_token`. -/
inductive CEEvent
  /-- `document.increment_throw_on_dynamic_markup_insertion_counter()`. -/
  | incThrowGuard
  /-- `perform_a_microtask_checkpoint()`. -/
  | microtaskCheckpoint
  /-- `ScriptThread::push_new_element_queue()`. -/
  | pushElementQueue
  /-- `Element::create` with the given custom-element creation mode
  (`true` = synchronous). -/
  | constructElement (sync : Bool)
  /-- `input.disable_sanitization()`. -/
  | disableSanitization
  /-- `element.set_attribute_from_parser` for one attribute. -/
  | setAttr (name value : String)
  /-- `input.enable_sanitization()`. -/
  | enableSanitization
  /-- `ScriptThread::pop_current_element_queue()`. -/
  | popElementQueue
  /-- `document.decrement_throw_on_dynamic_markup_insertion_counter()`. -/
  | decThrowGuard
deriving Repr, DecidableEq

/-- An `ElementAttribute` of the token. -/
structure CEAttr where
  name : String
  value : String
deriving Repr, DecidableEq

/-- ASCII-lowercase a character. -/
def asciiLowerChar (c : Char) : Char :=
  if 'A' ≤ c ∧ c ≤ 'Z' then Char.ofNat (c.toNat + 32) else c

/-- `eq_str_ignore_ascii_case`. -/
def eqIgnoreAsciiCase (a b : String) : Bool :=
  decide (a.data.map asciiLowerChar = b.data.map asciiLowerChar)

/-- `create_element_for_token` (lines 1305-1387), as the trace of its
visible operations.  `lookup` is the external
`document.lookup_custom_element_definition` (fed the resolved `is`
attribute value); `isInputLike` records whether the constructed element
downcasts to `HTMLInputElement`; `execStackEmpty` is
`is_execution_stack_empty()`. -/
def create_element_for_token (lookup : Option String → Bool)
    (parsingAlgorithm : ParsingAlgorithm) (isInputLike : Bool)
    (execStackEmpty : Bool) (attrs : List CEAttr) : List CEEvent :=
  -- Step 3: honour an explicit `is` attribute.
  let isValue := (attrs.find? (fun a => eqIgnoreAsciiCase a.name "is")).map
    (fun a => a.value)
  -- Steps 4-5.
  let definitionExists := lookup isValue
  let willExecuteScript :=
    definitionExists && decide (parsingAlgorithm ≠ ParsingAlgorithm.Fragment)
  -- Step 6.
  (if willExecuteScript then
    [CEEvent.incThrowGuard] ++
      (if execStackEmpty then [CEEvent.microtaskCheckpoint] else []) ++
      [CEEvent.pushElementQueue]
   else []) ++
  -- Step 7.
  [CEEvent.constructElement willExecuteScript] ++
  -- Sanitization is disabled for input elements before the attributes land...
  (if isInputLike then [CEEvent.disableSanitization] else []) ++
  -- Step 8.
  attrs.map (fun a => CEEvent.setAttr a.name a.value) ++
  -- ...and re-enabled (running it once) after all of them are set.
  (if isInputLike then [CEEvent.enableSanitization] else []) ++
  -- Step 9.
  (if willExecuteScript then [CEEvent.popElementQueue, CEEvent.decThrowGuard] else [])

/-! ## Fragment parsing

`parse_html_fragment` (lines 193-254) builds a throwaway document,
parses the input into it through the html tokenizer, and returns an
iterator over the throwaway root element's children.  The tokenizer,
`Node::children` and `Node::remove_self` live outside this module.
Modelled from the spec: the external fragment tokenizer drives the
Tree Construction Adapter against the parser's own (throwaway)
document only, reading the context element purely for parsing
decisions; `Node::children` yields the root element's children in
document order; `Node::remove_self` detaches a node from its parent.
Nodes are represented by identifiers, the throwaway document by its
root element's child list. -/

structure FragDocM where
  /-- The children of the throwaway document's root element, in document order. -/
  rootChildren : List Nat
  /-- The document's quirks mode (opaque three-valued code). -/
  quirksMode : Nat
deriving Repr, DecidableEq

/-- The context element's owning document, as the fragment session sees
it: an (opaque) tree plus its quirks mode. -/
structure ContextDocM where
  treeNodes : List Nat
  quirksMode : Nat
deriving Repr, DecidableEq

/-- `FragmentParsingResult`: the live document and the children
iterator. -/
structure FragmentParsingResultM where
  doc : FragDocM
  inner : List Nat
deriving Repr, DecidableEq

/-- `ServoParser::parse_html_fragment` (lines 193-254): create the
throwaway document carrying the context document's quirks mode, parse
the input into it (`build` is the external tokenizer session), and
return the context document (read, never written) together with the
iterator over the throwaway root's children. -/
def parse_html_fragment (build : FragDocM → String → FragDocM)
    (context : ContextDocM) (input : String) :
    ContextDocM × FragmentParsingResultM :=
  let doc : FragDocM := { rootChildren := [], quirksMode := context.quirksMode }
  let doc := build doc input
  (context, { doc := doc, inner := doc.rootChildren })

/-- `FragmentParsingResult::next` (lines 678-682): take the next child
from the iterator, call `remove_self` on it (detaching it from the
throwaway document), and hand it to the caller. -/
def FragmentParsingResultM.next (it : FragmentParsingResultM) :
    Option (Nat × FragmentParsingResultM) :=
  match it.inner with
  | [] => none
  | n :: rest =>
    some (n, { doc := { it.doc with rootChildren := it.doc.rootChildren.erase n },
               inner := rest })

/-! ## Concrete fixture states

Named concrete states and oracles used by the witnesses below. -/

/-- A base, freshly constructed parser state: empty queues, sniffing
for a BOM, decoder alive, not suspended, not aborted. -/
def baseState : ParserModelState :=
  { networkInput := []
    scriptInput := []
    prefetchInput := []
    bomSniff := some []
    networkDecoder := some 0
    lastChunkReceived := false
    suspended := false
    scriptNestingLevel := 0
    aborted := false
    scriptCreatedParser := false
    tokenizerState := 0
    tokenizerEnded := false
    encoding := Enc.other "windows-1252"
    readyState := ReadyState.loading
    readyStateLog := []
    currentParser := false
    hasPendingParsingBlockingScript := false
    hasBrowsingContext := false
    cspList := none
    finishedLoad := false }

/-- A suspended parser with both queues populated. -/
def suspendedQueuesState : ParserModelState :=
  { baseState with
      suspended := true
      scriptInput := ["s1", "s2"]
      networkInput := ["n1"] }

/-- A script-created parser whose document has a pending
parsing-blocking script and script input `["a"]`. -/
def pendingScriptState : ParserModelState :=
  { baseState with
      scriptCreatedParser := true
      hasPendingParsingBlockingScript := true
      scriptInput := ["a"] }

/-- A script-created parser, nothing pending. -/
def scriptCreatedState : ParserModelState :=
  { baseState with scriptCreatedParser := true }

/-- A tokenize-oracle for `write` that suspends, leaves `["reentrant"]`
in the script input (written by a reentrantly executed script) and
returns `["tail"]` unconsumed. -/
def suspendingFeed (s : ParserModelState) (_ : List String) :
    ParserModelState × List String :=
  ({ s with suspended := true, scriptInput := ["reentrant"] }, ["tail"])

/-- A suspended parser outside script execution that is the document's
current parser and has pending network input. -/
def idleSuspendedState : ParserModelState :=
  { baseState with
      suspended := true
      networkInput := ["<p>"]
      currentParser := true }

/-- Attributes of an `<input type=text value=x>` token. -/
def inputAttrs : List CEAttr :=
  [{ name := "type", value := "text" }, { name := "value", value := "x" }]

/-- A custom-element registry with no matching definition. -/
def noDefinitionLookup : Option String → Bool := fun _ => false

/-- A custom-element registry in which every name has a definition. -/
def allDefinitionLookup : Option String → Bool := fun _ => true

/-- A fragment tokenizer session producing two root children. -/
def fragBuildTwo : FragDocM → String → FragDocM :=
  fun d _ => { d with rootChildren := [1, 2] }

/-- A context document for the fragment witnesses. -/
def fragContext : ContextDocM := { treeNodes := [5, 6], quirksMode := 1 }

/-- The fragment iterator over two children. -/
def fragIterTwo : FragmentParsingResultM :=
  { doc := { rootChildren := [1, 2], quirksMode := 1 }, inner := [1, 2] }

/-- The fragment iterator after the first child was yielded: the child
is gone from the throwaway document. -/
def fragIterOne : FragmentParsingResultM :=
  { doc := { rootChildren := [2], quirksMode := 1 }, inner := [2] }

/-- Response metadata with no content-type header. -/
def noContentTypeMeta : MetadataM := { contentType := none, cspHeaders := some [] }

/-- A `page_headers_available` oracle yielding the fresh parser for any
metadata. -/
def basePha : Option MetadataM → Option ParserModelState := fun _ => some baseState

/-- A MIME-dispatch oracle that leaves the bridge untouched (never
consulted in the no-content-type scenario). -/
def idleDispatch : ParserContextM → ParserModelState → Option NetworkErrorM →
    MimeM → ParserContextM := fun c _ _ _ => c

/-- The fetch bridge before any response metadata. -/
def freshBridge : ParserContextM :=
  { parser := none, isSynthesizedDocument := false, pushedEntryIndex := none }

/-- The bridge after a successful response whose metadata has no
content-type header. -/
def bridgeAfterNoCT : ParserContextM :=
  process_response basePha none idleDispatch freshBridge
    (Except.ok noContentTypeMeta)

/-- A decoder oracle mapping any byte chunk to the text `"A"`. -/
def decodeToA : Nat → List Nat → Nat × String := fun d _ => (d, "A")

/-- A tokenize-loop oracle that consumes the whole network input,
advancing the tokenizer. -/
def consumeAllTok : ParserModelState → ParserModelState :=
  fun s => { s with networkInput := [], tokenizerState := s.tokenizerState + 1 }

/-- The parser after the first body chunk `[0x41]` of the
no-content-type response was decoded, pushed and tokenized. -/
def parserAfterChunk : ParserModelState :=
  { baseState with currentParser := true, bomSniff := some [65], tokenizerState := 1 }

/-- A decoder oracle mapping any byte chunk to the text `"x"`. -/
def decodeStub : Nat → List Nat → Nat × String := fun d _ => (d, "x")

/-- The UTF-8 BOM followed by `a`, split into three chunks. -/
def utf8BomChunks : List (List Nat) := [[0xEF], [0xBB], [0xBF, 0x61]]

/-- The UTF-8 BOM followed by `a`, as a single chunk. -/
def utf8BomBytes : List Nat := [0xEF, 0xBB, 0xBF, 0x61]

end ServoModel

namespace ServoModel

/-! ## Helper lemmas -/

theorem drainInto_eq_append (source : List String) :
    ∀ target : List String, drainInto target source = target ++ source := by
  induction source with
  | nil => intro target; simp [drainInto]
  | cons c rest ih =>
    intro target
    simp [drainInto, ih (target ++ [c])]

theorem appendRemainingCsp_of_no_invalid {γ : Type} (parse : String → γ)
    (app : γ → γ → γ) (rest : List (Option String)) :
    ∀ acc, (∀ x ∈ rest, x ≠ none) →
      appendRemainingCsp parse app acc rest
        = some ((rest.filterMap id).foldl (fun acc s => app acc (parse s)) acc) := by
  induction rest with
  | nil => intro acc _; rfl
  | cons x rest ih =>
    intro acc hall
    match x with
    | none => exact absurd rfl (hall none (List.mem_cons_self none rest))
    | some c =>
      have hrest : ∀ y ∈ rest, y ≠ none := fun y hy =>
        hall y (List.mem_cons_of_mem _ hy)
      simpa [appendRemainingCsp, List.filterMap_cons] using
        ih (app acc (parse c)) hrest

theorem appendRemainingCsp_of_invalid {γ : Type} (parse : String → γ)
    (app : γ → γ → γ) (rest : List (Option String)) :
    ∀ acc, none ∈ rest → appendRemainingCsp parse app acc rest = none := by
  induction rest with
  | nil => intro acc h; cases h
  | cons x rest ih =>
    intro acc h
    match x with
    | none => rfl
    | some c =>
      have : none ∈ rest := by
        rcases List.mem_cons.mp h with h' | h'
        · cases h'
        · exact h'
      simpa [appendRemainingCsp] using ih (app acc (parse c)) this

end ServoModel

namespace ServoModel

/-! ## Claim theorems -/

/-- Claim C1, counterexample: with policies modelled as lists of their
source strings, a response carrying one valid
`content-security-policy` header instance `"a"` followed by one whose
value contains invalid text resolves to `none`: the valid instance's
policies are *not* included, contradicting the claim that an invalid
instance is skipped while the others are kept (which would give
`some ["a"]`). -/
theorem claim_c1_counterexample :
    resolveCspList (fun s => [s]) (fun a b => a ++ b) [some "a", none] = none ∧
    resolveCspListSkipInvalid (fun s => [s]) (fun a b => a ++ b)
      [some "a", none] = some ["a"] ∧
    (none : Option (List String)) ≠ some ["a"] := by
  refine ⟨rfl, rfl, by simp⟩

/-- Claim C1, amended: the metadata handler combines the parsed
policies of all `content-security-policy` header instances in order,
but if *any* instance's value contains invalid text the whole CSP list
resolves to `none` (the valid instances are dropped along with it),
rather than skipping just the invalid instance. -/
theorem claim_c1_csp_combining {γ : Type} (parse : String → γ)
    (app : γ → γ → γ) (headers : List (Option String)) :
    (none ∈ headers → resolveCspList parse app headers = none) ∧
    ((∀ x ∈ headers, x ≠ none) →
      resolveCspList parse app headers
        = combinePolicies parse app (headers.filterMap id)) := by
  constructor
  · intro h
    match headers, h with
    | none :: rest, _ => rfl
    | some c :: rest, h =>
      have : none ∈ rest := by
        rcases List.mem_cons.mp h with h' | h'
        · cases h'
        · exact h'
      simpa [resolveCspList] using
        appendRemainingCsp_of_invalid parse app rest (parse c) this
  · intro hall
    match headers, hall with
    | [], _ => rfl
    | none :: rest, hall =>
      exact absurd rfl (hall none (List.mem_cons_self none rest))
    | some c :: rest, hall =>
      have hrest : ∀ y ∈ rest, y ≠ none := fun y hy =>
        hall y (List.mem_cons_of_mem _ hy)
      simpa [resolveCspList, List.filterMap_cons, combinePolicies] using
        appendRemainingCsp_of_no_invalid parse app rest (parse c) hrest

/-- Claim C1, witness: two valid header instances are combined in
order. -/
theorem claim_c1_csp_combining_witness :
    (∀ x ∈ ([some "a", some "b"] : List (Option String)), x ≠ none) ∧
    resolveCspList (fun s => [s]) (fun a b => a ++ b) [some "a", some "b"]
      = combinePolicies (fun s => [s]) (fun a b => a ++ b)
          (([some "a", some "b"] : List (Option String)).filterMap id) :=
  ⟨by simp, (claim_c1_csp_combining (fun s => [s]) (fun a b => a ++ b)
      [some "a", some "b"]).2 (by simp)⟩

/-- Claim C3: on a suspended parser with script input `S` and network
input `N`, `resume_with_pending_parsing_blocking_script` first merges
the queues: the merged state — the very state the script executes
against — has network input exactly `S ++ N` and an empty script
input. -/
theorem claim_c3_resume_merges
    (execute : ParserModelState → ParserModelState)
    (decoderFinish : Nat → String) (tok : ParserModelState → ParserModelState)
    (st : ParserModelState) (h : st.suspended = true) :
    (mergeInputQueues { st with suspended := false }).networkInput
        = st.scriptInput ++ st.networkInput ∧
    (mergeInputQueues { st with suspended := false }).scriptInput = [] ∧
    resume_with_pending_parsing_blocking_script execute decoderFinish tok st =
      (let st1 := mergeInputQueues { st with suspended := false }
       if st1.scriptNestingLevel ≠ 0 then none
       else
         let st2 := execute { st1 with scriptNestingLevel := st1.scriptNestingLevel + 1 }
         let st3 := { st2 with scriptNestingLevel := st1.scriptNestingLevel }
         if st3.suspended then some st3
         else parse_sync decoderFinish tok st3) := by
  refine ⟨?_, rfl, ?_⟩
  · simp [mergeInputQueues, drainInto_eq_append]
  · simp [resume_with_pending_parsing_blocking_script, h]

/-- Claim C3, witness: a suspended parser with script input
`["s1", "s2"]` and network input `["n1"]`. -/
theorem claim_c3_resume_merges_witness :
    suspendedQueuesState.suspended = true ∧
    (mergeInputQueues { suspendedQueuesState with suspended := false }).networkInput
      = ["s1", "s2", "n1"] :=
  ⟨rfl, by
    have h := (claim_c3_resume_merges id (fun _ => "") id
      suspendedQueuesState rfl).1
    simpa [suspendedQueuesState, baseState] using h⟩

/-- Claim C4: `write` on a parser whose document has a pending
parsing-blocking script appends the chunks, in order, to the end of
the script input and changes nothing else — the resulting state is the
old state with only `scriptInput` extended, and the result does not
depend on the tokenizer-feeding oracle at all (no tokenization
happens). -/
theorem claim_c4_write_pending
    (tokW tokW' : ParserModelState → List String → ParserModelState × List String)
    (st : ParserModelState) (text : List String)
    (hw : can_write st = true) (hp : st.hasPendingParsingBlockingScript = true) :
    write tokW st text = some { st with scriptInput := st.scriptInput ++ text } ∧
    write tokW st text = write tokW' st text := by
  constructor
  · simp [write, hw, hp, drainInto_eq_append]
  · simp [write, hw, hp]

/-- Claim C4, witness: a script-created parser with pending blocking
script and script input `["a"]` receiving `write ["b", "c"]`. -/
theorem claim_c4_write_pending_witness :
    can_write pendingScriptState = true ∧
    pendingScriptState.hasPendingParsingBlockingScript = true ∧
    write (fun s _ => (s, [])) pendingScriptState ["b", "c"]
      = some { pendingScriptState with scriptInput := ["a", "b", "c"] } :=
  ⟨rfl, rfl, by
    have h := (claim_c4_write_pending (fun s _ => (s, []))
      (fun s _ => (s, ["never"])) pendingScriptState ["b", "c"] rfl rfl).1
    simpa [pendingScriptState, baseState] using h⟩

/-- Claim C5: `write` with no pending parsing-blocking script feeds the
written text to the tokenizer; if that leaves the parser newly
suspended with unconsumed remainder `leftover`, and scripts executed
reentrantly during the feed left `R` in the script input, the final
script input is exactly `R ++ leftover` — the outer call's leftover
text is ordered strictly after the reentrant writes. -/
theorem claim_c5_write_leftover
    (tokW : ParserModelState → List String → ParserModelState × List String)
    (st st' : ParserModelState) (text leftover R : List String)
    (hw : can_write st = true) (hp : st.hasPendingParsingBlockingScript = false)
    (hs : st.scriptInput = []) (ht : tokW st text = (st', leftover))
    (hsusp : st'.suspended = true) (hR : st'.scriptInput = R) :
    write tokW st text = some { st' with scriptInput := R ++ leftover } := by
  have hdrain : drainInto [] text = text := by simp [drainInto_eq_append]
  simp [write, hw, hp, hs, hdrain, ht, hsusp, hR, drainInto_eq_append]

/-- Claim C5, witness: a reentrant `document.write` during the feed
leaves `["reentrant"]` in the script input, and the outer call's
leftover `["tail"]` lands after it. -/
theorem claim_c5_write_leftover_witness :
    write suspendingFeed scriptCreatedState ["<p>lead", "tail"]
    = some { scriptCreatedState with
        suspended := true
        scriptInput := ["reentrant", "tail"] } := by
  have h := claim_c5_write_leftover suspendingFeed scriptCreatedState
    { scriptCreatedState with suspended := true, scriptInput := ["reentrant"] }
    ["<p>lead", "tail"] ["tail"] ["reentrant"]
    rfl rfl rfl rfl rfl rfl
  simpa [scriptCreatedState, baseState] using h

/-- Claim C7: a first `abort` on a non-aborted parser empties both
input queues, moves the document through the interactive ready state to
complete, ends the tokenizer and detaches the parser; a second `abort`
on the resulting parser violates the `assert!(!aborted)` precondition
(modelled as `none`). -/
theorem claim_c7_abort (st : ParserModelState) (h : st.aborted = false) :
    ∃ st', abort st = some st' ∧
      st'.scriptInput = [] ∧ st'.networkInput = [] ∧
      st'.readyState = ReadyState.complete ∧
      st'.readyStateLog
        = st.readyStateLog ++ [ReadyState.interactive, ReadyState.complete] ∧
      st'.tokenizerEnded = true ∧ st'.currentParser = false ∧
      abort st' = none := by
  have habort : abort st = some
      { st with
          aborted := true
          scriptInput := []
          networkInput := []
          readyState := ReadyState.complete
          readyStateLog := st.readyStateLog
            ++ [ReadyState.interactive, ReadyState.complete]
          tokenizerEnded := true
          currentParser := false } := by
    simp [abort, h, setReadyState]
  exact ⟨_, habort, rfl, rfl, rfl, rfl, rfl, rfl, by simp [abort]⟩

/-- Claim C7, witness: aborting the fresh parser. -/
theorem claim_c7_abort_witness :
    baseState.aborted = false ∧
    ∃ st', abort baseState = some st' ∧
      st'.scriptInput = [] ∧ st'.networkInput = [] ∧
      st'.readyState = ReadyState.complete ∧
      st'.readyStateLog
        = baseState.readyStateLog ++ [ReadyState.interactive, ReadyState.complete] ∧
      st'.tokenizerEnded = true ∧ st'.currentParser = false ∧
      abort st' = none :=
  ⟨rfl, claim_c7_abort baseState rfl⟩

/-- Claim C10: `is_active` returns `true` exactly when the script
nesting level is positive and the parser is not aborted; in particular
it returns `false` whenever the nesting level is zero, regardless of
suspension, pending input or current-parser status. -/
theorem claim_c10_is_active (st : ParserModelState) :
    (is_active st = true ↔ 0 < st.scriptNestingLevel ∧ st.aborted = false) ∧
    (st.scriptNestingLevel = 0 → is_active st = false) := by
  constructor
  · simp [is_active]
  · intro h; simp [is_active, h]

/-- Claim C10, witness: a suspended parser with pending network input
that is the document's current parser, outside script execution, is not
active. -/
theorem claim_c10_is_active_witness :
    idleSuspendedState.scriptNestingLevel = 0 ∧
    is_active idleSuspendedState = false :=
  ⟨rfl, (claim_c10_is_active idleSuspendedState).2 rfl⟩

theorem setAttr_map_not_mem (attrs : List CEAttr) (e : CEEvent)
    (h : ∀ a v, e ≠ CEEvent.setAttr a v) :
    e ∉ attrs.map (fun a => CEEvent.setAttr a.name a.value) := by
  intro hmem
  rcases List.mem_map.mp hmem with ⟨a, _, ha⟩
  exact h a.name a.value ha.symm

theorem setAttr_map_count (attrs : List CEAttr) (e : CEEvent)
    (h : ∀ a v, e ≠ CEEvent.setAttr a v) :
    (attrs.map (fun a => CEEvent.setAttr a.name a.value)).count e = 0 :=
  List.count_eq_zero.mpr (setAttr_map_not_mem attrs e h)

/-- Claim C8, counterexample: with no matching custom-element
definition (the asynchronous path) in normal mode, creating an
input-like element still brackets attribute application with
disable/enable of value-sanitization — the claim asserts that the
asynchronous path happens "without any of that bracketing". -/
theorem claim_c8_counterexample :
    CEEvent.disableSanitization ∈
      create_element_for_token noDefinitionLookup ParsingAlgorithm.Normal
        true true inputAttrs ∧
    CEEvent.enableSanitization ∈
      create_element_for_token noDefinitionLookup ParsingAlgorithm.Normal
        true true inputAttrs := by
  constructor <;> simp [create_element_for_token, noDefinitionLookup, inputAttrs]

/-- Claim C8, amended: value-sanitization bracketing for an input-like
element happens on *both* paths — sanitization is disabled exactly once
before the attributes are applied and re-enabled exactly once after all
of them, whether or not a custom-element definition exists; what the
asynchronous path (no definition or fragment mode) lacks is only the
guard/checkpoint/reaction-queue bracketing: none of the
increment-guard, microtask-checkpoint, push-queue, pop-queue or
decrement-guard operations occur there, while on the synchronous path
(definition exists and mode is normal) the whole construction is
bracketed by increment-guard first and decrement-guard last. -/
theorem claim_c8_element_creation (lookup : Option String → Bool)
    (mode : ParsingAlgorithm) (isInputLike execStackEmpty : Bool)
    (attrs : List CEAttr) :
    ((create_element_for_token lookup mode isInputLike execStackEmpty attrs).count
        CEEvent.disableSanitization = if isInputLike then 1 else 0) ∧
    ((create_element_for_token lookup mode isInputLike execStackEmpty attrs).count
        CEEvent.enableSanitization = if isInputLike then 1 else 0) ∧
    (isInputLike = true →
      ∃ p s, create_element_for_token lookup mode isInputLike execStackEmpty attrs
          = p ++ [CEEvent.disableSanitization]
              ++ attrs.map (fun a => CEEvent.setAttr a.name a.value)
              ++ [CEEvent.enableSanitization] ++ s ∧
        (∀ a v, CEEvent.setAttr a v ∉ p) ∧ (∀ a v, CEEvent.setAttr a v ∉ s)) ∧
    ((lookup ((attrs.find? (fun a => eqIgnoreAsciiCase a.name "is")).map
          (fun a => a.value)) = false ∨ mode = ParsingAlgorithm.Fragment) →
      CEEvent.incThrowGuard ∉
        create_element_for_token lookup mode isInputLike execStackEmpty attrs ∧
      CEEvent.microtaskCheckpoint ∉
        create_element_for_token lookup mode isInputLike execStackEmpty attrs ∧
      CEEvent.pushElementQueue ∉
        create_element_for_token lookup mode isInputLike execStackEmpty attrs ∧
      CEEvent.popElementQueue ∉
        create_element_for_token lookup mode isInputLike execStackEmpty attrs ∧
      CEEvent.decThrowGuard ∉
        create_element_for_token lookup mode isInputLike execStackEmpty attrs) ∧
    ((lookup ((attrs.find? (fun a => eqIgnoreAsciiCase a.name "is")).map
          (fun a => a.value)) = true ∧ mode = ParsingAlgorithm.Normal) →
      ∃ mid, create_element_for_token lookup mode isInputLike execStackEmpty attrs
        = CEEvent.incThrowGuard :: mid ++
            [CEEvent.popElementQueue, CEEvent.decThrowGuard]) := by
  have hdis := setAttr_map_count attrs CEEvent.disableSanitization
    (by intro a v h; cases h)
  have hen := setAttr_map_count attrs CEEvent.enableSanitization
    (by intro a v h; cases h)
  refine ⟨?_, ?_, ?_, ?_, ?_⟩
  · cases hdef : lookup ((attrs.find? (fun a => eqIgnoreAsciiCase a.name "is")).map
      (fun a => a.value)) <;> cases mode <;> cases isInputLike <;>
      cases execStackEmpty <;>
      simp [create_element_for_token, hdef, List.count_append, List.count_cons, hdis]
  · cases hdef : lookup ((attrs.find? (fun a => eqIgnoreAsciiCase a.name "is")).map
      (fun a => a.value)) <;> cases mode <;> cases isInputLike <;>
      cases execStackEmpty <;>
      simp [create_element_for_token, hdef, List.count_append, List.count_cons, hen]
  · intro hinput
    subst hinput
    cases hdef : lookup ((attrs.find? (fun a => eqIgnoreAsciiCase a.name "is")).map
      (fun a => a.value)) <;> cases mode <;> cases execStackEmpty
    case false.Normal.false =>
      exact ⟨[CEEvent.constructElement false], [], by
        simp [create_element_for_token, hdef], by intro a v; simp,
        by intro a v; simp⟩
    case false.Normal.true =>
      exact ⟨[CEEvent.constructElement false], [], by
        simp [create_element_for_token, hdef], by intro a v; simp,
        by intro a v; simp⟩
    case false.Fragment.false =>
      exact ⟨[CEEvent.constructElement false], [], by
        simp [create_element_for_token, hdef], by intro a v; simp,
        by intro a v; simp⟩
    case false.Fragment.true =>
      exact ⟨[CEEvent.constructElement false], [], by
        simp [create_element_for_token, hdef], by intro a v; simp,
        by intro a v; simp⟩
    case true.Normal.false =>
      exact ⟨[CEEvent.incThrowGuard, CEEvent.pushElementQueue,
          CEEvent.constructElement true],
        [CEEvent.popElementQueue, CEEvent.decThrowGuard], by
          simp [create_element_for_token, hdef], by intro a v; simp,
        by intro a v; simp⟩
    case true.Normal.true =>
      exact ⟨[CEEvent.incThrowGuard, CEEvent.microtaskCheckpoint,
          CEEvent.pushElementQueue, CEEvent.constructElement true],
        [CEEvent.popElementQueue, CEEvent.decThrowGuard], by
          simp [create_element_for_token, hdef], by intro a v; simp,
        by intro a v; simp⟩
    case true.Fragment.false =>
      exact ⟨[CEEvent.constructElement false], [], by
        simp [create_element_for_token, hdef], by intro a v; simp,
        by intro a v; simp⟩
    case true.Fragment.true =>
      exact ⟨[CEEvent.constructElement false], [], by
        simp [create_element_for_token, hdef], by intro a v; simp,
        by intro a v; simp⟩
  · intro hasync
    rcases hasync with h | h
    · refine ⟨?_, ?_, ?_, ?_, ?_⟩ <;> simp [create_element_for_token, h]
    · subst h
      refine ⟨?_, ?_, ?_, ?_, ?_⟩ <;> simp [create_element_for_token]
  · rintro ⟨hdef, hmode⟩
    subst hmode
    refine ⟨(if execStackEmpty then [CEEvent.microtaskCheckpoint] else [])
      ++ [CEEvent.pushElementQueue, CEEvent.constructElement true]
      ++ (if isInputLike then [CEEvent.disableSanitization] else [])
      ++ attrs.map (fun a => CEEvent.setAttr a.name a.value)
      ++ (if isInputLike then [CEEvent.enableSanitization] else []), ?_⟩
    cases isInputLike <;> cases execStackEmpty <;>
      simp [create_element_for_token, hdef]

/-- Claim C8, witness for the amended claim: the synchronous path on an
input-like element with a matching definition is guard-bracketed and
sanitization-bracketed; and on the asynchronous path the sanitization
bracketing is still present while the guard events are absent. -/
theorem claim_c8_element_creation_witness :
    ((create_element_for_token allDefinitionLookup ParsingAlgorithm.Normal
        true true inputAttrs).count CEEvent.disableSanitization = 1) ∧
    (∃ mid, create_element_for_token allDefinitionLookup ParsingAlgorithm.Normal
        true true inputAttrs
      = CEEvent.incThrowGuard :: mid ++
          [CEEvent.popElementQueue, CEEvent.decThrowGuard]) ∧
    CEEvent.incThrowGuard ∉
      create_element_for_token noDefinitionLookup ParsingAlgorithm.Normal
        true true inputAttrs :=
  ⟨(claim_c8_element_creation allDefinitionLookup ParsingAlgorithm.Normal
      true true inputAttrs).1,
   (claim_c8_element_creation allDefinitionLookup ParsingAlgorithm.Normal
      true true inputAttrs).2.2.2.2 ⟨rfl, rfl⟩,
   ((claim_c8_element_creation noDefinitionLookup ParsingAlgorithm.Normal
      true true inputAttrs).2.2.2.1 (Or.inl rfl)).1⟩

/-- Claim C9: a fragment-parsing session returns the context document
untouched (the embedded session only reads it), the iterator's yield
sequence is exactly the throwaway root element's children in document
order, and every `next` step yields the head child after removing it
from the throwaway document, so a yielded node (under distinct node
identities) is no longer attached to the throwaway document when handed
to the caller. -/
theorem claim_c9_fragment (build : FragDocM → String → FragDocM)
    (context : ContextDocM) (input : String) :
    (parse_html_fragment build context input).1 = context ∧
    (parse_html_fragment build context input).2.inner
      = (parse_html_fragment build context input).2.doc.rootChildren ∧
    (∀ it n it', FragmentParsingResultM.next it = some (n, it') →
      it.inner = n :: it'.inner ∧
      it'.doc.rootChildren = it.doc.rootChildren.erase n ∧
      (it.doc.rootChildren.Nodup → n ∉ it'.doc.rootChildren)) := by
  refine ⟨rfl, rfl, ?_⟩
  intro it n it' h
  cases hinner : it.inner with
  | nil => simp [FragmentParsingResultM.next, hinner] at h
  | cons m rest =>
    rw [FragmentParsingResultM.next, hinner] at h
    injection h with h1
    injection h1 with hm hrec
    subst hm
    subst hrec
    exact ⟨by simp [hinner], rfl, fun hnd => hnd.not_mem_erase⟩

/-- Claim C2, counterexample: after a successful response whose
metadata has no content-type header, the bridge has already stored the
parser reference (line 847 runs before the content-type check of
line 850), so a subsequent body-chunk delivery is decoded, pushed into
the parser's input and tokenized — the parser state changes (the BOM
sniffer consumed the byte and the tokenizer advanced over the pushed
text), contradicting the claim that chunk deliveries push no input and
cause no parsing. -/
theorem claim_c2_counterexample :
    bridgeAfterNoCT.parser = some baseState ∧
    process_response_chunk decodeToA id (fun _ => "") consumeAllTok
        bridgeAfterNoCT [65]
      = some { bridgeAfterNoCT with parser := some parserAfterChunk } ∧
    parserAfterChunk ≠ baseState ∧
    parserAfterChunk.tokenizerState = 1 := by
  refine ⟨rfl, by decide, by decide, rfl⟩

/-- Claim C2, amended: for a response whose metadata has no
content-type header, the metadata handler stores the parser reference
and the CSP list and then returns without any MIME dispatch (the
dispatch oracle is never consulted); but because the parser reference
was stored *before* the content-type check, every subsequent body-chunk
delivery on a non-synthesised document is still forwarded to
`parse_bytes_chunk` — decoded, appended to the network input and
parsed — rather than dropped. -/
theorem claim_c2_no_content_type
    (pha : Option MetadataM → Option ParserModelState) (timing : Option Nat)
    (dispatch dispatch' : ParserContextM → ParserModelState →
      Option NetworkErrorM → MimeM → ParserContextM)
    (ctx : ParserContextM) (meta : MetadataM) (parser parserC : ParserModelState)
    (hct : meta.contentType = none)
    (hpha : pha (some meta) = some parser)
    (hab : parser.aborted = false)
    (hpc : parserC = { parser with cspList := meta.cspHeaders.bind (fun hs =>
        resolveCspList (fun s => [s]) (fun a b => a ++ b) hs) }) :
    process_response pha timing dispatch ctx (Except.ok meta)
      = { ctx with parser := some parserC, pushedEntryIndex := timing } ∧
    process_response pha timing dispatch ctx (Except.ok meta)
      = process_response pha timing dispatch' ctx (Except.ok meta) ∧
    (∀ decode prefetchFeed decoderFinish tok payload,
      ctx.isSynthesizedDocument = false →
      process_response_chunk decode prefetchFeed decoderFinish tok
          { ctx with parser := some parserC, pushedEntryIndex := timing } payload
        = (parse_bytes_chunk decode prefetchFeed decoderFinish tok
            parserC payload).map
            (fun p1 => { ctx with parser := some p1, pushedEntryIndex := timing })) ∧
    (∀ (prefetchFeed : List String → List String) (st : ParserModelState)
        (chunk : String), chunk.isEmpty = false →
      (push_tendril_input_chunk prefetchFeed st chunk).networkInput
        = st.networkInput ++ [chunk]) := by
  refine ⟨?_, ?_, ?_, ?_⟩
  · subst hpc
    simp [process_response, metadataAndError, hct, hpha, hab]
  · simp [process_response, metadataAndError, hct, hpha, hab]
  · intro decode prefetchFeed decoderFinish tok payload hsynth
    have habC : parserC.aborted = false := by rw [hpc]; exact hab
    cases hpb : parse_bytes_chunk decode prefetchFeed decoderFinish tok
        parserC payload with
    | none => simp [process_response_chunk, hsynth, habC, hpb]
    | some p1 => simp [process_response_chunk, hsynth, habC, hpb]
  · intro prefetchFeed st chunk hchunk
    unfold push_tendril_input_chunk
    rw [hchunk]
    simp only [Bool.false_eq_true, if_false]
    split <;> rfl

/-- Claim C2, witness for the amended claim: the concrete
no-content-type response stores the fresh parser, and the body chunk
`[65]` is forwarded and parsed. -/
theorem claim_c2_no_content_type_witness :
    noContentTypeMeta.contentType = none ∧
    basePha (some noContentTypeMeta) = some baseState ∧
    baseState.aborted = false ∧
    process_response basePha none idleDispatch freshBridge
        (Except.ok noContentTypeMeta)
      = { freshBridge with parser := some baseState, pushedEntryIndex := none } ∧
    (push_tendril_input_chunk id baseState "A").networkInput = ["A"] := by
  have h := claim_c2_no_content_type basePha none idleDispatch idleDispatch
    freshBridge noContentTypeMeta baseState baseState rfl rfl rfl (by rfl)
  exact ⟨rfl, rfl, rfl, h.1, by
    have h4 := h.2.2.2 id baseState "A" rfl
    simpa [baseState] using h4⟩

/-- Claim C9, witness: a session yielding two children; the first
`next` yields child 1 after detaching it from the throwaway document. -/
theorem bomSniffStep_networkDecoder (st : ParserModelState) (c : List Nat) :
    (bomSniffStep st c).networkDecoder = st.networkDecoder := by
  cases h : st.bomSniff with
  | none => simp [bomSniffStep, h]
  | some p =>
    by_cases h3 : 3 ≤ p.length + c.length
    · cases hfb : for_bom (p ++ c.take (3 - p.length)) with
      | none => simp [bomSniffStep, h, h3, hfb]
      | some r => cases r; simp [bomSniffStep, h, h3, hfb]
    · simp [bomSniffStep, h, h3]

theorem bomSniffStep_sniffFst (st : ParserModelState) (c : List Nat) :
    (bomSniffStep st c).bomSniff = (sniffStep (st.bomSniff, st.encoding) c).1 := by
  cases h : st.bomSniff with
  | none => simp [bomSniffStep, sniffStep, h]
  | some p =>
    by_cases h3 : 3 ≤ p.length + c.length
    · cases hfb : for_bom (p ++ c.take (3 - p.length)) with
      | none => simp [bomSniffStep, sniffStep, h, h3, hfb]
      | some r => cases r; simp [bomSniffStep, sniffStep, h, h3, hfb]
    · simp [bomSniffStep, sniffStep, h, h3]

theorem bomSniffStep_sniffSnd (st : ParserModelState) (c : List Nat) :
    (bomSniffStep st c).encoding = (sniffStep (st.bomSniff, st.encoding) c).2 := by
  cases h : st.bomSniff with
  | none => simp [bomSniffStep, sniffStep, h]
  | some p =>
    by_cases h3 : 3 ≤ p.length + c.length
    · cases hfb : for_bom (p ++ c.take (3 - p.length)) with
      | none => simp [bomSniffStep, sniffStep, h, h3, hfb]
      | some r => cases r; simp [bomSniffStep, sniffStep, h, h3, hfb]
    · simp [bomSniffStep, sniffStep, h, h3]

theorem push_tendril_bomSniff (pf : List String → List String)
    (st : ParserModelState) (chunk : String) :
    (push_tendril_input_chunk pf st chunk).bomSniff = st.bomSniff := by
  unfold push_tendril_input_chunk
  split
  · rfl
  · split <;> rfl

theorem push_tendril_encoding (pf : List String → List String)
    (st : ParserModelState) (chunk : String) :
    (push_tendril_input_chunk pf st chunk).encoding = st.encoding := by
  unfold push_tendril_input_chunk
  split
  · rfl
  · split <;> rfl

theorem push_tendril_networkDecoder (pf : List String → List String)
    (st : ParserModelState) (chunk : String) :
    (push_tendril_input_chunk pf st chunk).networkDecoder = st.networkDecoder := by
  unfold push_tendril_input_chunk
  split
  · rfl
  · split <;> rfl

theorem push_bytes_sniff (decode : Nat → List Nat → Nat × String)
    (pf : List String → List String) (st : ParserModelState) (c : List Nat)
    (hd : st.networkDecoder.isSome = true) :
    ∃ st', push_bytes_input_chunk decode pf st c = some st' ∧
      st'.bomSniff = (sniffStep (st.bomSniff, st.encoding) c).1 ∧
      st'.encoding = (sniffStep (st.bomSniff, st.encoding) c).2 ∧
      st'.networkDecoder.isSome = true := by
  rcases hd' : st.networkDecoder with _ | d
  · rw [hd'] at hd
    cases hd
  · have hnd : (bomSniffStep st c).networkDecoder = some d := by
      rw [bomSniffStep_networkDecoder, hd']
    have hpush : push_bytes_input_chunk decode pf st c
        = some (push_tendril_input_chunk pf
            { bomSniffStep st c with networkDecoder := some (decode d c).1 }
            (decode d c).2) := by
      simp [push_bytes_input_chunk, hnd]
    refine ⟨_, hpush, ?_, ?_, ?_⟩
    · rw [push_tendril_bomSniff]
      exact bomSniffStep_sniffFst st c
    · rw [push_tendril_encoding]
      exact bomSniffStep_sniffSnd st c
    · rw [push_tendril_networkDecoder]
      rfl

theorem feedBytesChunks_sniff (decode : Nat → List Nat → Nat × String)
    (pf : List String → List String) (chunks : List (List Nat)) :
    ∀ st : ParserModelState, st.networkDecoder.isSome = true →
      ∃ st', feedBytesChunks decode pf st chunks = some st' ∧
        st'.bomSniff = (List.foldl sniffStep (st.bomSniff, st.encoding) chunks).1 ∧
        st'.encoding = (List.foldl sniffStep (st.bomSniff, st.encoding) chunks).2 ∧
        st'.networkDecoder.isSome = true := by
  induction chunks with
  | nil => intro st hd; exact ⟨st, rfl, rfl, rfl, hd⟩
  | cons c cs ih =>
    intro st hd
    rcases push_bytes_sniff decode pf st c hd with ⟨st1, hpush, hb, he, hd1⟩
    rcases ih st1 hd1 with ⟨st2, hfeed, hb2, he2, hd2⟩
    have hpair : (st1.bomSniff, st1.encoding) = sniffStep (st.bomSniff, st.encoding) c := by
      rw [Prod.ext_iff]
      exact ⟨hb, he⟩
    refine ⟨st2, ?_, ?_, ?_, hd2⟩
    · simp [feedBytesChunks, hpush, hfeed]
    · rw [hb2, List.foldl_cons, ← hpair]
    · rw [he2, List.foldl_cons, ← hpair]

theorem sniffStep_none_foldl (cs : List (List Nat)) :
    ∀ e : Enc, List.foldl sniffStep (none, e) cs = (none, e) := by
  induction cs with
  | nil => intro e; rfl
  | cons c cs ih => intro e; simpa [sniffStep] using ih e

theorem sniffStep_some (p : List Nat) (e : Enc) (c : List Nat) :
    sniffStep (some p, e) c =
      if 3 ≤ p.length + c.length then
        match for_bom (p ++ c.take (3 - p.length)) with
        | some (enc, _) => (none, enc)
        | none => (none, e)
      else (some (p ++ c), e) := rfl

theorem sniffStep_foldl_join (cs : List (List Nat)) :
    ∀ (p : List Nat) (e : Enc), p.length < 3 →
      List.foldl sniffStep (some p, e) cs = sniffStep (some p, e) cs.flatten := by
  induction cs with
  | nil =>
    intro p e hp
    have h3 : ¬ 3 ≤ p.length := by omega
    simp [sniffStep, List.flatten, h3]
  | cons c cs ih =>
    intro p e hp
    rw [List.foldl_cons, List.flatten_cons]
    have hlen1 : (c ++ cs.flatten).length = c.length + cs.flatten.length :=
      List.length_append c cs.flatten
    by_cases h3 : 3 ≤ p.length + c.length
    · have htake : (c ++ cs.flatten).take (3 - p.length) = c.take (3 - p.length) :=
        List.take_append_of_le_length (by omega)
      have h3' : 3 ≤ p.length + (c ++ cs.flatten).length := by omega
      rcases hfb : for_bom (p ++ c.take (3 - p.length)) with _ | ⟨enc, k⟩
      · rw [sniffStep_some, sniffStep_some, if_pos h3, if_pos h3', htake, hfb]
        exact sniffStep_none_foldl cs e
      · rw [sniffStep_some, sniffStep_some, if_pos h3, if_pos h3', htake, hfb]
        exact sniffStep_none_foldl cs enc
    · have hlen2 : (p ++ c).length = p.length + c.length := List.length_append p c
      have hpc : (p ++ c).length < 3 := by omega
      rw [show sniffStep (some p, e) c = (some (p ++ c), e) from by
        rw [sniffStep_some, if_neg h3]]
      rw [ih (p ++ c) e hpc]
      rw [sniffStep_some, sniffStep_some]
      by_cases h3j : 3 ≤ (p ++ c).length + cs.flatten.length
      · have h3b : 3 ≤ p.length + (c ++ cs.flatten).length := by omega
        have hclen : c.length ≤ 3 - p.length := by omega
        have hidx : 3 - p.length - c.length = 3 - (p ++ c).length := by omega
        have htake2 : (c ++ cs.flatten).take (3 - p.length)
            = c ++ cs.flatten.take (3 - (p ++ c).length) := by
          rw [List.take_append_eq_append_take, List.take_of_length_le hclen, hidx]
        rw [if_pos h3j, if_pos h3b, htake2, ← List.append_assoc]
      · have h3b : ¬ 3 ≤ p.length + (c ++ cs.flatten).length := by omega
        rw [if_neg h3j, if_neg h3b, List.append_assoc]

theorem for_bom_take_three (bs : List Nat) :
    for_bom (bs.take 3) = for_bom bs := by
  unfold for_bom
  rw [List.take_take, List.take_take]
  norm_num

/-- Claim C6: feeding a byte sequence that begins with a recognised BOM
signature (and reaches the three-byte verdict) to a fresh parser in
arbitrarily many chunks produces the same final document encoding and
the same (`none`) BOM-sniff state as feeding it in one chunk, and that
encoding is the one the BOM names. -/
theorem claim_c6_bom_chunking (decode : Nat → List Nat → Nat × String)
    (pf : List String → List String) (st : ParserModelState)
    (chunks : List (List Nat)) (bs : List Nat) (enc : Enc) (k : Nat)
    (hfresh : st.bomSniff = some []) (hdec : st.networkDecoder.isSome = true)
    (hjoin : chunks.flatten = bs) (hbom : for_bom bs = some (enc, k))
    (hlen : 3 ≤ bs.length) :
    ∃ stA stB,
      feedBytesChunks decode pf st chunks = some stA ∧
      feedBytesChunks decode pf st [bs] = some stB ∧
      stA.encoding = stB.encoding ∧ stA.bomSniff = stB.bomSniff ∧
      stA.bomSniff = none ∧ stA.encoding = enc := by
  have hstep : sniffStep (some [], st.encoding) bs = (none, enc) := by
    have h3 : 3 ≤ ([] : List Nat).length + bs.length := by simpa using hlen
    have htk : ([] : List Nat) ++ bs.take (3 - ([] : List Nat).length) = bs.take 3 := by
      simp
    rw [sniffStep]
    simp only [h3, if_true, htk, for_bom_take_three, hbom]
  have hfold : List.foldl sniffStep (st.bomSniff, st.encoding) chunks = (none, enc) := by
    rw [hfresh, sniffStep_foldl_join chunks [] st.encoding (by simp), hjoin, hstep]
  have hfold1 : List.foldl sniffStep (st.bomSniff, st.encoding) [bs] = (none, enc) := by
    rw [hfresh]
    simpa using hstep
  rcases feedBytesChunks_sniff decode pf chunks st hdec with ⟨stA, hA, hAb, hAe, _⟩
  rcases feedBytesChunks_sniff decode pf [bs] st hdec with ⟨stB, hB, hBb, hBe, _⟩
  refine ⟨stA, stB, hA, hB, ?_, ?_, ?_, ?_⟩
  · rw [hAe, hBe, hfold, hfold1]
  · rw [hAb, hBb, hfold, hfold1]
  · rw [hAb, hfold]
  · rw [hAe, hfold]

/-- Claim C6, witness: the UTF-8 BOM plus one byte, split into three
chunks, detects UTF-8 exactly as the single four-byte chunk does. -/
theorem claim_c6_bom_chunking_witness :
    baseState.bomSniff = some [] ∧
    utf8BomChunks.flatten = utf8BomBytes ∧
    for_bom utf8BomBytes = some (Enc.utf8, 3) ∧
    ∃ stA stB,
      feedBytesChunks decodeStub id baseState utf8BomChunks = some stA ∧
      feedBytesChunks decodeStub id baseState [utf8BomBytes] = some stB ∧
      stA.encoding = stB.encoding ∧ stA.bomSniff = stB.bomSniff ∧
      stA.bomSniff = none ∧ stA.encoding = Enc.utf8 :=
  ⟨rfl, by decide, by decide,
   claim_c6_bom_chunking decodeStub id baseState utf8BomChunks utf8BomBytes
     Enc.utf8 3 rfl rfl (by decide) (by decide) (by decide)⟩

theorem claim_c9_fragment_witness :
    (parse_html_fragment fragBuildTwo fragContext "<p>1</p><p>2</p>").1
      = fragContext ∧
    FragmentParsingResultM.next fragIterTwo = some (1, fragIterOne) ∧
    fragIterTwo.inner = 1 :: fragIterOne.inner ∧
    (1 : Nat) ∉ fragIterOne.doc.rootChildren :=
  ⟨(claim_c9_fragment fragBuildTwo fragContext "<p>1</p><p>2</p>").1, rfl,
   ((claim_c9_fragment fragBuildTwo fragContext "<p>1</p><p>2</p>").2.2
      fragIterTwo 1 fragIterOne rfl).1,
   (((claim_c9_fragment fragBuildTwo fragContext "<p>1</p><p>2</p>").2.2
      fragIterTwo 1 fragIterOne rfl).2.2 (by simp [fragIterTwo]))⟩

end ServoModel
